import Mathlib

/-!
Verification development for the `pkg` package manager.

The Rust sources under `src/` are shallowly embedded here:
- `src/bridge.rs` (bridge execution protocol, registry discovery),
- `src/fs.rs` (filesystem materializer),
- `src/db.rs` (record-store queries, modelled as list operations over rows),
- `src/main.rs` (reconciliation and the orchestrator loop).

Strings are Lean `String`s; the string operations of the Rust standard
library (`split`, `trim`, `lines`) are re-implemented on `List Char` so that
all definitions are kernel-computable.  The process environment is an
association list, the filesystem a list of (path, kind) entries, and the
record store a list of table rows.  A Rust panic (`unwrap` on a missing
value) is modelled by an explicit `diverge` outcome.
-/

namespace PkgSpec

/-! ### String helpers (Rust std semantics, char-level) -/

/-- Rust `str::split(sep)`: splitting the empty string yields one empty field,
and every separator occurrence opens a new field. -/
def splitChars (sep : Char) : List Char → List (List Char)
  | [] => [[]]
  | c :: rest =>
    match splitChars sep rest with
    | [] => [[]]
    | g :: gs => if c = sep then [] :: g :: gs else (c :: g) :: gs

/-- Rust `str::split(sep)` on a `String`. -/
def splitOnSep (sep : Char) (s : String) : List String :=
  (splitChars sep s.toList).map String.mk

/-- Rust `str::trim` (whitespace stripped from both ends). -/
def trimStr (s : String) : String :=
  String.mk (((s.toList.dropWhile Char.isWhitespace).reverse.dropWhile
    Char.isWhitespace).reverse)

/-- Rust `str::lines().next()`: `none` on the empty string, otherwise the
text before the first newline. -/
def firstLineOpt (s : String) : Option String :=
  if s.toList.isEmpty then none
  else some ((splitOnSep '\n' s).headD "")

/-- Rust `Path::is_relative` on unix: the path does not start with `/`. -/
def startsWithChar (c : Char) (s : String) : Bool :=
  match s.toList with
  | [] => false
  | a :: _ => a = c

/-- Tests whether the char list `a` is an initial segment of `b`. -/
def leadsList : List Char → List Char → Bool
  | [], _ => true
  | _ :: _, [] => false
  | a :: as, b :: bs => a = b && leadsList as bs

/-! ### Process environment (`std::env`) -/

/-- The process environment: an association list from variable name to value. -/
abbrev Env := List (String × String)

/-- Rust `env::var(k).ok()`. -/
def envGet (e : Env) (k : String) : Option String :=
  (e.find? (fun kv => kv.1 = k)).map (fun kv => kv.2)

/-- Rust `env::remove_var k`. -/
def envRemove (e : Env) (k : String) : Env :=
  e.filter (fun kv => ¬ (kv.1 = k))

/-- Rust `env::set_var k v` (overrides an existing binding). -/
def envSet (e : Env) (k v : String) : Env :=
  (k, v) :: envRemove e k

/-! ### Filesystem model -/

inductive FileKind where
  | file
  | dir
  deriving DecidableEq, Repr

/-- The filesystem: a list of (path, kind) entries. -/
abbrev FsState := List (String × FileKind)

/-- Rust `Path::exists`. -/
def pathExists (fs : FsState) (p : String) : Bool :=
  fs.any (fun e => e.1 = p)

/-- Rust `Path::is_dir`. -/
def isDirFs (fs : FsState) (p : String) : Bool :=
  fs.any (fun e => e.1 = p ∧ e.2 = FileKind.dir)

/-- Path `q` lies strictly under directory `p` (so that `p ++ "/"` leads it). -/
def underDir (p q : String) : Bool :=
  leadsList (p.toList ++ ['/']) q.toList

/-- Rust `std::fs::remove_dir_all` (pure effect part): deletes `p` and
everything under it. -/
def removeDirAllFs (fs : FsState) (p : String) : FsState :=
  fs.filter (fun e => ¬ (e.1 = p ∨ underDir p e.1 = true))

/-- Rust `std::fs::remove_file` (pure effect part): deletes the entry `p`. -/
def removeFileFs (fs : FsState) (p : String) : FsState :=
  fs.filter (fun e => ¬ (e.1 = p))

/-- Rust `std::fs::create_dir_all`: a no-op on an existing directory, an
error when the path exists as a file. -/
def createDirAll (fs : FsState) (p : String) : Except String FsState :=
  if isDirFs fs p then .ok fs
  else if pathExists fs p then .error "File exists"
  else .ok ((p, FileKind.dir) :: fs)

/-! ### Data model (src/db.rs, src/input.rs) -/

/-- src/db.rs `Version`: exactly three components, stored as strings. -/
structure PkgVersion where
  first_cell : String
  second_cell : String
  third_cell : String
  deriving DecidableEq, Repr

/-- src/db.rs `PkgType`. -/
inductive PkgType where
  | SingleExecutable
  | Directory (entry_point : String)
  deriving DecidableEq, Repr

/-- src/db.rs `Pkg`. -/
structure Pkg where
  name : String
  version : PkgVersion
  path : String
  pkg_type : PkgType
  deriving DecidableEq, Repr

/-- src/input.rs `AttributeValue`.  The `Float` payload is an `f64` in the
source; only its decimal rendering is ever observed (it is stringified into
the environment), so the rendering itself is carried here. -/
inductive AttributeValue where
  | String (value : String)
  | Integer (value : Int)
  | Float (rendering : String)
  | Boolean (value : Bool)
  deriving DecidableEq, Repr

/-- Stringification used by `pass_opts_to_env` (Rust `to_string`). -/
def attrValueToString : AttributeValue → String
  | .String v => v
  | .Integer v => toString v
  | .Float v => v
  | .Boolean v => toString v

/-- src/input.rs `PkgDeclaration`.  The attribute map is carried as an
association list with distinct keys. -/
structure PkgDeclaration where
  name : String
  input : String
  attributes : List (String × AttributeValue)
  deriving DecidableEq, Repr

/-- One row of the `packages` table (src/db.rs): the stored record plus its
owning bridge. -/
structure DbPkg where
  name : String
  version : PkgVersion
  path : String
  pkg_type : PkgType
  bridge : String
  deriving DecidableEq, Repr

/-- src/db.rs `get_pkgs_by_name`: all rows whose name is in the given list,
in table order. -/
def get_pkgs_by_name (db : List DbPkg) (names : List String) : List DbPkg :=
  db.filter (fun row => names.contains row.name)

/-- src/db.rs `which_pkgs_are_installed`: the input names that have a row. -/
def which_pkgs_are_installed (db : List DbPkg) (pkgs : List String) :
    List String :=
  pkgs.filter (fun pkg => db.any (fun row => row.name = pkg))

/-- src/db.rs `which_pkgs_are_not_installed`: the input names without a row. -/
def which_pkgs_are_not_installed (db : List DbPkg) (pkgs : List String) :
    List String :=
  pkgs.filter (fun pkg => ¬ db.any (fun row => row.name = pkg))

/-- src/db.rs `get_pkg_bridge_by_name`: the bridge column of the first row
with the given name (names are the primary key). -/
def get_pkg_bridge_by_name (db : List DbPkg) (name : String) : Option String :=
  (db.find? (fun row => row.name = name)).map (fun row => row.bridge)

/-- src/db.rs `Pkg::to_pkg_declaration_with_empty_attributes`. -/
def to_pkg_declaration_with_empty_attributes (p : DbPkg) : PkgDeclaration :=
  ⟨p.name, p.path, []⟩

/-! ### Bridge execution protocol (src/bridge.rs) -/

/-- src/bridge.rs `Operation`. -/
inductive Operation where
  | Install
  | Update
  | Remove
  deriving DecidableEq, Repr

/-- src/bridge.rs `Operation::display`. -/
def Operation.display : Operation → String
  | .Install => "install"
  | .Update => "update"
  | .Remove => "remove"

/-- src/bridge.rs `BridgeApiError` (payloads reduced to their strings). -/
inductive BridgeApiError where
  | IoError (msg : String)
  | BridgeNotFound (name : String)
  | BridgeSetNotFound (path : String)
  | BridgeSetPathAreNotADirectory (path : String)
  | BridgeError (msg : String)
  | BridgeEntryPointNotExecutable (path : String)
  | BridgeWrongOutput (output : String)
  | BridgeFailedAtRuntime (msg : String)
  | BridgeWrongVersionFormat (version : String)
  | BridgeNotValid (path : String)
  | BridgeNotValidEntryPoint (path : String)
  | BridgeFailedToCreateLogFile (msg : String)
  | BridgeFailedToOpenLogFile (msg : String)
  deriving DecidableEq, Repr

/-- A captured subprocess result (`std::process::Output`), assuming a normal
exit on unix so that `status.code()` is the exit code. -/
structure ProcOutput where
  exitCode : Nat
  stdout : String
  stderr : String
  deriving DecidableEq, Repr

/-- src/bridge.rs `BridgeOutput`. -/
structure BridgeOutput where
  version : PkgVersion
  pkg_path : String
  pkg_type : PkgType
  deriving DecidableEq, Repr

/-- src/bridge.rs `default_impls::remove` (lines 125-137).  The source reads
the `pkg_path` environment variable with `unwrap`, panicking when it is
absent; the panic is modelled by `none`.  Otherwise it deletes the path
(recursively when it is a directory) and returns whether anything existed. -/
def default_impls_remove (env : Env) (fs : FsState) :
    Option (FsState × Bool) :=
  match envGet env "pkg_path" with
  | none => none
  | some pkg_path =>
    if pathExists fs pkg_path then
      if isDirFs fs pkg_path then some (removeDirAllFs fs pkg_path, true)
      else some (removeFileFs fs pkg_path, true)
    else some (fs, false)

/-- src/lib.rs `DEFAULT_LOG_DIR`. -/
def DEFAULT_LOG_DIR : String := "/var/log/pkg"

/-- The attribute loop of src/bridge.rs `pass_opts_to_env` (lines 531-548):
one variable per attribute, value stringified, any preexisting binding
removed first. -/
def set_attr_vars (attributes : List (String × AttributeValue))
    (env : Env) : Env :=
  attributes.foldl (fun env kv =>
    let value := attrValueToString kv.2
    let env := if (envGet env kv.1).isSome then envRemove env kv.1 else env
    envSet env kv.1 value) env

/-- src/bridge.rs `BridgeApi::pass_opts_to_env` (lines 512-551): set
`pkg_path` when a prior record path was found, always set `pkg_log_file`,
then one variable per attribute (removing any preexisting binding first). -/
def pass_opts_to_env (attributes : List (String × AttributeValue))
    (pkg_path : Option String) (log_file : String) (env : Env) : Env :=
  let env := match pkg_path with
    | some path =>
      let env := if (envGet env "pkg_path").isSome
        then envRemove env "pkg_path" else env
      envSet env "pkg_path" path
    | none => env
  let env := if (envGet env "pkg_log_file").isSome
    then envRemove env "pkg_log_file" else env
  let env := envSet env "pkg_log_file" log_file
  set_attr_vars attributes env

/-- src/bridge.rs `BridgeApi::clear_env` (lines 553-562): unset exactly the
attribute-named variables. -/
def clear_env (attributes_keys : List String) (env : Env) : Env :=
  attributes_keys.foldl
    (fun env key => if (envGet env key).isSome then envRemove env key else env)
    env

/-- src/bridge.rs `BridgeApi::parse_bridge_output` (lines 349-440). -/
def parse_bridge_output (fs : FsState) (pwd : String)
    (bridge_output : ProcOutput) : Except BridgeApiError BridgeOutput :=
  if ¬ (bridge_output.exitCode = 0) then
    .error (.BridgeError bridge_output.stderr)
  else
    match firstLineOpt bridge_output.stdout with
    | none => .error (.IoError "Wrong bridge output, no thing is returned")
    | some first_line =>
      let first_line := trimStr first_line
      let split := splitOnSep ',' first_line
      if split.length > 3 ∨ split.length < 2 then
        .error (.BridgeWrongOutput bridge_output.stdout)
      else
        let pkg_path := split.headD ""
        let version_str := split.getD 1 ""
        let pkg_type := match split.get? 2 with
          | some entry_point => PkgType.Directory entry_point
          | none => PkgType.SingleExecutable
        let version_split := splitOnSep '.' version_str
        if ¬ (version_split.length = 3) then
          .error (.BridgeWrongVersionFormat version_str)
        else
          let version : PkgVersion :=
            ⟨version_split.getD 0 "", version_split.getD 1 "",
              version_split.getD 2 ""⟩
          let pkg_path := if startsWithChar '/' pkg_path then pkg_path
            else pwd ++ "/" ++ pkg_path
          let pkg_type := match pkg_type with
            | PkgType.Directory path =>
              PkgType.Directory (if startsWithChar '/' path then path
                else pwd ++ "/" ++ path)
            | t => t
          if ¬ (pathExists fs pkg_path = true) then
            .error (.BridgeNotValid pkg_path)
          else
            match pkg_type with
            | PkgType.Directory path =>
              if ¬ (pathExists fs path = true) then
                .error (.BridgeNotValidEntryPoint path)
              else .ok ⟨version, pkg_path, PkgType.Directory path⟩
            | PkgType.SingleExecutable =>
              .ok ⟨version, pkg_path, PkgType.SingleExecutable⟩

/-- Outcome of one `run_operation` call: `diverge` is a Rust panic,
`failure` an `Err`, `success` the `Ok` payload (`Option<Pkg>`). -/
inductive RunOutcome where
  | diverge
  | failure (e : BridgeApiError)
  | success (res : Option Pkg)
  deriving DecidableEq, Repr

/-- Result of `run_operation` together with the final process environment
and filesystem. -/
structure RunResult where
  env : Env
  fs : FsState
  outcome : RunOutcome
  deriving DecidableEq, Repr

/-- The `match bridge_output { ... }` tail of src/bridge.rs
`BridgeApi::run_operation` (lines 250-315), evaluated after the environment
was already cleared of the attribute keys.  `spawn` gives the subprocess
result per operation argument (the Update branch re-invokes with Install);
a spawn error carries the OS error message. -/
def run_op_result (spawn : Operation → Except String ProcOutput)
    (pwd : String) (pkg : PkgDeclaration) (operation : Operation)
    (bridge_output : Except String ProcOutput) (env : Env) (fs : FsState) :
    RunResult :=
  match bridge_output with
  | .error err => ⟨env, fs, .failure (.BridgeFailedAtRuntime err)⟩
  | .ok output =>
    match operation with
    | .Install =>
      match parse_bridge_output fs pwd output with
      | .error e => ⟨env, fs, .failure e⟩
      | .ok parsed =>
        ⟨env, fs, .success (some ⟨pkg.name, parsed.version, parsed.pkg_path,
          parsed.pkg_type⟩)⟩
    | .Update =>
      if ¬ (output.exitCode = 0) ∧ output.exitCode = 1 ∧
          trimStr output.stderr = "__IMPL_DEFAULT" then
        match default_impls_remove env fs with
        | none => ⟨env, fs, .diverge⟩
        | some (fs2, _) =>
          match spawn Operation.Install with
          | .error err => ⟨env, fs2, .failure (.IoError err)⟩
          | .ok output2 =>
            match parse_bridge_output fs2 pwd output2 with
            | .error e => ⟨env, fs2, .failure e⟩
            | .ok parsed =>
              ⟨env, fs2, .success (some ⟨pkg.name, parsed.version,
                parsed.pkg_path, parsed.pkg_type⟩)⟩
      else
        match parse_bridge_output fs pwd output with
        | .error e => ⟨env, fs, .failure e⟩
        | .ok parsed =>
          ⟨env, fs, .success (some ⟨pkg.name, parsed.version,
            parsed.pkg_path, parsed.pkg_type⟩)⟩
    | .Remove =>
      if ¬ (output.exitCode = 0) ∧ output.exitCode = 1 ∧
          trimStr output.stderr = "__IMPL_DEFAULT" then
        match default_impls_remove env fs with
        | none => ⟨env, fs, .diverge⟩
        | some (fs2, _) => ⟨env, fs2, .success none⟩
      else ⟨env, fs, .failure (.BridgeError (trimStr output.stderr))⟩

/-- src/bridge.rs `BridgeApi::run_operation` (lines 172-316), from the prior
record lookup onward: look up `pkg_path` for Update/Remove, marshal the
environment, spawn the bridge, unconditionally clear the attribute keys,
then interpret the result.  Working-directory setup and log-file writing
have no bearing on the modelled state beyond `pwd` and the log path. -/
def run_operation (spawn : Operation → Except String ProcOutput)
    (db : List DbPkg) (bridge_name : String) (pkg : PkgDeclaration)
    (operation : Operation) (pwd : String) (env : Env) (fs : FsState) :
    RunResult :=
  let log_file := DEFAULT_LOG_DIR ++ "/" ++ bridge_name ++ ".log"
  let pkg_path : Option String :=
    if operation = Operation.Update ∨ operation = Operation.Remove then
      ((get_pkgs_by_name db [pkg.name]).head?).map (fun p => p.path)
    else none
  let env := pass_opts_to_env pkg.attributes pkg_path log_file env
  let bridge_output := spawn operation
  let env := clear_env (pkg.attributes.map (fun kv => kv.1)) env
  run_op_result spawn pwd pkg operation bridge_output env fs

/-- Outcome of `BridgeApi::remove`: the `Ok` payload is the reported
"was anything removed" boolean. -/
inductive RemoveOutcome where
  | diverge
  | failure (e : BridgeApiError)
  | success (removed : Bool)
  deriving DecidableEq, Repr

/-- Result of `BridgeApi::remove` together with the final environment and
filesystem. -/
structure RemoveResult where
  env : Env
  fs : FsState
  outcome : RemoveOutcome
  deriving DecidableEq, Repr

/-- src/bridge.rs `BridgeApi::remove` (lines 328-331): run the Remove
operation, then report `res.is_none()` as the removed boolean. -/
def bridge_api_remove (spawn : Operation → Except String ProcOutput)
    (db : List DbPkg) (bridge_name : String) (pkg : PkgDeclaration)
    (pwd : String) (env : Env) (fs : FsState) : RemoveResult :=
  let r := run_operation spawn db bridge_name pkg Operation.Remove pwd env fs
  match r.outcome with
  | .diverge => ⟨r.env, r.fs, .diverge⟩
  | .failure e => ⟨r.env, r.fs, .failure e⟩
  | .success res => ⟨r.env, r.fs, .success res.isNone⟩

/-! ### Filesystem materializer (src/fs.rs) -/

/-- src/fs.rs `FsError`. -/
inductive FsError where
  | IoError (msg : String)
  | LoadPathIsFile
  deriving DecidableEq, Repr

/-- src/fs.rs `Fs::new` (lines 28-39), filesystem effect: `create_dir_all`
on `target_dir` and on `load_path`, with errors discarded (`let _ =`). -/
def fs_new (target_dir load_path : String) (fs : FsState) : FsState :=
  let fs := match createDirAll fs target_dir with
    | .ok fs2 => fs2
    | .error _ => fs
  match createDirAll fs load_path with
  | .ok fs2 => fs2
  | .error _ => fs

/-- Rust `std::fs::remove_dir_all` as called with `?`: fails when the path
is not a directory. -/
def removeDirAllChecked (fs : FsState) (p : String) : Except String FsState :=
  if isDirFs fs p then .ok (removeDirAllFs fs p)
  else if pathExists fs p then .error "Not a directory"
  else .error "No such file or directory"

/-- Rust `std::fs::remove_file` as called with `?`: fails on a directory. -/
def removeFileChecked (fs : FsState) (p : String) : Except String FsState :=
  if isDirFs fs p then .error "Is a directory"
  else if pathExists fs p then .ok (removeFileFs fs p)
  else .error "No such file or directory"

/-- The symlink loop of src/fs.rs `Fs::link` (lines 53-68): for each record,
remove an existing entry named after the package under `load_path`, then
symlink the record's path (or entry point, for a directory package). -/
def link_loop (load_path : String) : List DbPkg → FsState →
    Except FsError FsState
  | [], fs => .ok fs
  | pkg :: rest, fs =>
    let target := load_path ++ "/" ++ pkg.name
    let step : Except FsError FsState :=
      if pathExists fs target then
        match removeFileChecked fs target with
        | .error e => .error (.IoError e)
        | .ok fs2 => .ok fs2
      else .ok fs
    match step with
    | .error e => .error e
    | .ok fs2 => link_loop load_path rest ((target, FileKind.file) :: fs2)

/-- src/fs.rs `Fs::link` (lines 41-71).  The source's branch structure is
kept as written: the missing-path case creates the directory, the
exists-but-not-a-directory case removes and recreates it, and the final
`else` (path exists and is a directory) returns `LoadPathIsFile`. -/
def fs_link (load_path : String) (pkgs : List DbPkg) (fs : FsState) :
    Except FsError FsState :=
  let setup : Except FsError FsState :=
    if ¬ (pathExists fs load_path = true) then
      match createDirAll fs load_path with
      | .error e => .error (.IoError e)
      | .ok fs2 => .ok fs2
    else if ¬ (isDirFs fs load_path = true) then
      match removeDirAllChecked fs load_path with
      | .error e => .error (.IoError e)
      | .ok fs2 =>
        match createDirAll fs2 load_path with
        | .error e => .error (.IoError e)
        | .ok fs3 => .ok fs3
    else .error .LoadPathIsFile
  match setup with
  | .error e => .error e
  | .ok fs2 => link_loop load_path pkgs fs2

/-! ### Bridge registry discovery (src/bridge.rs `load_bridges`) -/

/-- src/bridge.rs `Bridge` (lines 15-19). -/
structure Bridge where
  name : String
  entry_point : String
  deriving DecidableEq, Repr

/-- One directory entry of the bridge-set root, with the properties of its
`run` entry point that discovery inspects. -/
structure Candidate where
  name : String
  isDir : Bool
  runExists : Bool
  runIsFile : Bool
  runExecutable : Bool
  deriving DecidableEq, Repr

/-- The scan loop of src/bridge.rs `load_bridges` (lines 464-494): skip
non-directories and candidates not in `needed`, fail on a needed candidate
whose present `run` file lacks every execute bit, and collect the rest. -/
def load_bridges_loop (root : String) (needed : List String) :
    List Candidate → List Bridge → Except BridgeApiError (List Bridge)
  | [], acc => .ok acc
  | c :: rest, acc =>
    if c.isDir then
      if ¬ (needed.contains c.name = true) then
        load_bridges_loop root needed rest acc
      else
        let entry_point_path := root ++ "/" ++ c.name ++ "/run"
        if c.runExists ∧ c.runIsFile then
          if ¬ (c.runExecutable = true) then
            .error (.BridgeEntryPointNotExecutable entry_point_path)
          else
            load_bridges_loop root needed rest
              (acc ++ [⟨c.name, entry_point_path⟩])
        else load_bridges_loop root needed rest acc
    else load_bridges_loop root needed rest acc

/-- src/bridge.rs `BridgeApi::load_bridges` (lines 442-510): root checks,
the scan loop, then the missing-bridge check reporting only the first
missing needed name. -/
def load_bridges (root : String) (root_exists root_is_dir : Bool)
    (entries : List Candidate) (needed : List String) :
    Except BridgeApiError (List Bridge) :=
  if ¬ (root_exists = true) then .error (.BridgeSetNotFound root)
  else if ¬ (root_is_dir = true) then
    .error (.BridgeSetPathAreNotADirectory root)
  else
    match load_bridges_loop root needed entries [] with
    | .error e => .error e
    | .ok bridges =>
      let missing_bridges := needed.filter
        (fun b => ¬ bridges.any (fun bridge => bridge.name = b))
      if ¬ (missing_bridges.isEmpty = true) then
        .error (.BridgeNotFound (missing_bridges.headD ""))
      else .ok bridges

/-! ### Reconciliation (src/main.rs `filter_pkgs_by_statuses`) -/

/-- src/main.rs `filter_pkgs_by_statuses` (lines 469-522).  Returns, in
order: declared packages with an installed record (`toUpdate`), declared
packages without one (`toInstall`), and records owned by this bridge whose
name is not among the declared names (`toRemove`), the latter converted to
declarations with empty attributes. -/
def filter_pkgs_by_statuses (db : List DbPkg) (inputs_pkgs : List String)
    (pkgs_declarations : List PkgDeclaration) (bridge_name : String) :
    List PkgDeclaration × List PkgDeclaration × List PkgDeclaration :=
  let all_installed_pkgs := db
  let installed_pkgs_in_input_names := which_pkgs_are_installed db inputs_pkgs
  let not_installed_pkgs_in_input_names :=
    which_pkgs_are_not_installed db inputs_pkgs
  let installed_pkgs_not_in_input_names :=
    (all_installed_pkgs.filter
      (fun p => ¬ (inputs_pkgs.contains p.name = true))).map (fun p => p.name)
  let installed_pkgs_in_input := pkgs_declarations.filter
    (fun p => installed_pkgs_in_input_names.any (fun n => n = p.name))
  let not_installed_pkgs_in_input := pkgs_declarations.filter
    (fun p => not_installed_pkgs_in_input_names.any (fun n => n = p.name))
  let installed_pkgs_not_in_input :=
    (all_installed_pkgs.filter
      (fun p => installed_pkgs_not_in_input_names.contains p.name = true ∧
        get_pkg_bridge_by_name db p.name = some bridge_name)).map
      to_pkg_declaration_with_empty_attributes
  (installed_pkgs_in_input, not_installed_pkgs_in_input,
    installed_pkgs_not_in_input)

/-! ### Orchestrator (src/main.rs, command dispatch and job loop) -/

/-- src/main.rs `Job` (lines 131-136). -/
inductive Job where
  | Install
  | Update
  | Remove
  | Reinstall
  deriving DecidableEq, Repr

/-- The job-producing commands of src/cmd.rs `Commands` (Clean, Link, Info
and Docs never reach the job loop and are omitted). -/
inductive Cmd where
  | Build (update : Bool)
  | Rebuild
  | Update (packages : Option (List String))
  deriving DecidableEq, Repr

/-- src/main.rs lines 163-187: the job list pushed for each command. -/
def jobs_for (cmd : Cmd) : List Job :=
  match cmd with
  | .Build update => (if update then [Job.Update] else []) ++
      [Job.Install, Job.Remove]
  | .Rebuild => [Job.Install, Job.Remove, Job.Reinstall]
  | .Update _ => [Job.Update]

/-- src/main.rs lines 196-202: the package list each job iterates. -/
def pkgs_for_job (job : Job)
    (installed_pkgs_in_input not_installed_pkgs_in_input
      installed_pkgs_not_in_input : List PkgDeclaration) :
    List PkgDeclaration :=
  match job with
  | .Install => not_installed_pkgs_in_input
  | .Update => installed_pkgs_in_input
  | .Remove => installed_pkgs_not_in_input
  | .Reinstall => installed_pkgs_in_input

/-- The fallible collaborator calls of the orchestrator loop, as oracles:
bridge operations, filesystem placement/removal, and record-store writes.
Error payloads are the reported message. -/
structure Oracles where
  install : String → PkgDeclaration → Except String Pkg
  update : String → PkgDeclaration → Except String Pkg
  remove : String → PkgDeclaration → Except String Bool
  fs_store : String → Pkg → Except String Pkg
  fs_remove : String → Except String Unit
  db_remove : String → Except String Unit
  db_install : String → Pkg → Except String Unit

/-- Control flow after one package of one job: `next` proceeds to the next
package, `halt` is an early `return Err(..)` aborting the whole run. -/
inductive StepFlow where
  | next
  | halt (err : String)
  deriving DecidableEq, Repr

/-- src/main.rs lines 267-319 (`Action::Add(Ok(..))` handling): place the
artifact, for Update delete the old record, then write the new record; each
failure is reported and the loop continues.  The error case was already
consumed by the early `continue` (line 257), so this never halts. -/
def handle_add (o : Oracles) (bridge_name : String)
    (action : Except String Pkg) (is_update : Bool) : StepFlow :=
  match action with
  | .error _ => .next
  | .ok pkg =>
    match o.fs_store bridge_name pkg with
    | .error _ => .next
    | .ok pkg2 =>
      if is_update then
        match o.db_remove pkg2.name with
        | .error _ => .next
        | .ok _ =>
          match o.db_install bridge_name pkg2 with
          | .error _ => .next
          | .ok _ => .next
      else
        match o.db_install bridge_name pkg2 with
        | .error _ => .next
        | .ok _ => .next

/-- src/main.rs lines 320-365 (`Action::Remove` handling): on `Ok(true)`
delete the managed copy then the record, each failure reported and the loop
continued; `Ok(false)` and `Err` are reported and the loop continued. -/
def handle_remove (o : Oracles) (action : Except String Bool)
    (pkg_name : String) : StepFlow :=
  match action with
  | .error _ => .next
  | .ok true =>
    match o.fs_remove pkg_name with
    | .error _ => .next
    | .ok _ =>
      match o.db_remove pkg_name with
      | .error _ => .next
      | .ok _ => .next
  | .ok false => .next

/-- src/main.rs lines 217-369: processing of one package under one job.
Install/Update/Remove produce an action that is handled without halting;
Reinstall (lines 229-254) returns the error of a failed bridge install or
bridge remove to the caller, halting the run, while a failed record
deletion is only reported. -/
def exec_pkg (o : Oracles) (bridge_name : String) (job : Job)
    (pkg : PkgDeclaration) : StepFlow :=
  match job with
  | .Install => handle_add o bridge_name (o.install bridge_name pkg) false
  | .Update => handle_add o bridge_name (o.update bridge_name pkg) true
  | .Remove => handle_remove o (o.remove bridge_name pkg) pkg.name
  | .Reinstall =>
    match o.install bridge_name pkg with
    | .error err => .halt err
    | .ok installed =>
      match o.remove bridge_name pkg with
      | .error err => .halt err
      | .ok _ =>
        let _ := o.db_remove pkg.name
        handle_add o bridge_name (.ok installed) false

/-- The per-package loop of one job: returns the names attempted, in order,
and the halting error if the run was aborted. -/
def exec_pkg_list (o : Oracles) (bridge_name : String) (job : Job) :
    List PkgDeclaration → List String × Option String
  | [] => ([], none)
  | pkg :: rest =>
    match exec_pkg o bridge_name job pkg with
    | .halt err => ([pkg.name], some err)
    | .next =>
      let r := exec_pkg_list o bridge_name job rest
      (pkg.name :: r.1, r.2)

/-- The job loop of one bridge (src/main.rs lines 196-370). -/
def exec_jobs (o : Oracles) (bridge_name : String)
    (installed_pkgs_in_input not_installed_pkgs_in_input
      installed_pkgs_not_in_input : List PkgDeclaration) :
    List Job → List String × Option String
  | [] => ([], none)
  | job :: rest =>
    let pkgs := pkgs_for_job job installed_pkgs_in_input
      not_installed_pkgs_in_input installed_pkgs_not_in_input
    let r := exec_pkg_list o bridge_name job pkgs
    match r.2 with
    | some err => (r.1, some err)
    | none =>
      let r2 := exec_jobs o bridge_name installed_pkgs_in_input
        not_installed_pkgs_in_input installed_pkgs_not_in_input rest
      (r.1 ++ r2.1, r2.2)

/-- One declared bridge group of the run. -/
structure BridgeRun where
  name : String
  decls : List PkgDeclaration
  deriving DecidableEq, Repr

/-- Processing of one bridge (src/main.rs lines 143-370): reconcile, narrow
`toUpdate` to the explicit subset for `Update(packages)`, then run the jobs
of the command. -/
def exec_bridge (o : Oracles) (cmd : Cmd) (db : List DbPkg) (b : BridgeRun) :
    List String × Option String :=
  let inputs_pkgs := b.decls.map (fun p => p.name)
  let r := filter_pkgs_by_statuses db inputs_pkgs b.decls b.name
  let installed_pkgs_in_input := match cmd with
    | .Update (some packages) =>
      r.1.filter (fun p => packages.contains p.name = true)
    | _ => r.1
  exec_jobs o b.name installed_pkgs_in_input r.2.1 r.2.2 (jobs_for cmd)

/-- The bridge loop of the run (src/main.rs line 143): an early `return`
from any bridge aborts the remaining bridges. -/
def exec_run (o : Oracles) (cmd : Cmd) (db : List DbPkg) :
    List BridgeRun → List String × Option String
  | [] => ([], none)
  | b :: rest =>
    let r := exec_bridge o cmd db b
    match r.2 with
    | some err => (r.1, some err)
    | none =>
      let r2 := exec_run o cmd db rest
      (r.1 ++ r2.1, r2.2)

/-! ### Concrete fixtures used by the claim theorems and witnesses -/

/-- A bridge whose subprocess always exits 0 with empty output. -/
def spawnExitZero : Operation → Except String ProcOutput :=
  fun _ => .ok ⟨0, "", ""⟩

/-- A bridge that always requests default behavior: exit code 1, stderr
exactly the sentinel. -/
def spawnSentinel : Operation → Except String ProcOutput :=
  fun _ => .ok ⟨1, "", "__IMPL_DEFAULT"⟩

/-- A store with one record: package `p` at `/pkgs/p`, owned by `br`. -/
def dbOneRecord : List DbPkg :=
  [⟨"p", ⟨"1", "0", "0"⟩, "/pkgs/p", .SingleExecutable, "br"⟩]

/-- The declaration of package `p`, no attributes. -/
def declP : PkgDeclaration := ⟨"p", "src", []⟩

/-- The declaration of package `p` with one attribute `cfg = "v"`. -/
def declPAttr : PkgDeclaration := ⟨"p", "src", [("cfg", .String "v")]⟩

/-- A filesystem holding `/pkgs/p` as a file. -/
def fsFileP : FsState := [("/pkgs/p", FileKind.file)]

/-- A filesystem holding `/pkgs/p` as a directory with a child file. -/
def fsDirP : FsState :=
  [("/pkgs/p", FileKind.dir), ("/pkgs/p/bin", FileKind.file)]

/-- A well-formed installed package record for orchestrator fixtures. -/
def okPkg (n : String) : Pkg :=
  ⟨n, ⟨"1", "0", "0"⟩, "/store/" ++ n, .SingleExecutable⟩

/-- Oracles in which every collaborator call succeeds. -/
def oraclesOk : Oracles where
  install := fun _ p => .ok (okPkg p.name)
  update := fun _ p => .ok (okPkg p.name)
  remove := fun _ _ => .ok true
  fs_store := fun _ p => .ok p
  fs_remove := fun _ => .ok ()
  db_remove := fun _ => .ok ()
  db_install := fun _ _ => .ok ()

/-- Oracles in which the bridge install of package `p1` fails and every
other call succeeds. -/
def oraclesFailP1 : Oracles where
  install := fun _ p => if p.name = "p1" then .error "boom" else .ok (okPkg p.name)
  update := fun _ p => .ok (okPkg p.name)
  remove := fun _ _ => .ok true
  fs_store := fun _ p => .ok p
  fs_remove := fun _ => .ok ()
  db_remove := fun _ => .ok ()
  db_install := fun _ _ => .ok ()

/-- A store in which `p1` and `p2` are installed and owned by `br`. -/
def dbP1P2 : List DbPkg :=
  [⟨"p1", ⟨"1", "0", "0"⟩, "/store/p1", .SingleExecutable, "br"⟩,
   ⟨"p2", ⟨"1", "0", "0"⟩, "/store/p2", .SingleExecutable, "br"⟩]

/-- The bridge group declaring `p1` and `p2`. -/
def bridgeRunP1P2 : BridgeRun :=
  ⟨"br", [⟨"p1", "s1", []⟩, ⟨"p2", "s2", []⟩]⟩

/-- A store in which `cur` and `old` are installed and owned by `br`. -/
def dbCurOld : List DbPkg :=
  [⟨"cur", ⟨"1", "0", "0"⟩, "/store/cur", .SingleExecutable, "br"⟩,
   ⟨"old", ⟨"1", "0", "0"⟩, "/store/old", .SingleExecutable, "br"⟩]

/-- The bridge group declaring `cur` (already installed) and `new` (not
installed); `old` is installed but no longer declared. -/
def bridgeRunCurNew : BridgeRun :=
  ⟨"br", [⟨"cur", "s1", []⟩, ⟨"new", "s2", []⟩]⟩

/-! ### Environment lemmas -/

theorem envGet_envRemove_self (e : Env) (k : String) :
    envGet (envRemove e k) k = none := by
  have h : (envRemove e k).find? (fun kv => kv.1 = k) = none := by
    rw [List.find?_eq_none]
    intro kv hm
    rcases List.mem_filter.mp hm with ⟨_, hq⟩
    simpa using hq
  simp [envGet, h]

theorem envRemove_find_other (e : Env) (k k2 : String) (h : ¬ (k = k2)) :
    (envRemove e k2).find? (fun kv => kv.1 = k)
      = e.find? (fun kv => kv.1 = k) := by
  induction e with
  | nil => rfl
  | cons kv rest ih =>
    unfold envRemove at ih ⊢
    by_cases hk2 : kv.1 = k2
    · have hk : ¬ (kv.1 = k) := fun hc => h (by rw [← hc, hk2])
      rw [List.filter_cons_of_neg (by simpa using hk2), ih,
        List.find?_cons_of_neg _ (by simpa using hk)]
    · rw [List.filter_cons_of_pos (by simpa using hk2)]
      by_cases hk : kv.1 = k
      · rw [List.find?_cons_of_pos _ (by simpa using hk),
          List.find?_cons_of_pos _ (by simpa using hk)]
      · rw [List.find?_cons_of_neg _ (by simpa using hk), ih,
          List.find?_cons_of_neg _ (by simpa using hk)]

theorem envGet_envRemove_other (e : Env) (k k2 : String) (h : ¬ (k = k2)) :
    envGet (envRemove e k2) k = envGet e k := by
  unfold envGet
  rw [envRemove_find_other e k k2 h]

theorem envGet_envSet_self (e : Env) (k v : String) :
    envGet (envSet e k v) k = some v := by
  simp [envGet, envSet, List.find?]

theorem envGet_envSet_other (e : Env) (k k2 v : String) (h : ¬ (k = k2)) :
    envGet (envSet e k2 v) k = envGet e k := by
  unfold envGet envSet
  rw [List.find?_cons_of_neg _ (by simpa using fun hc => h hc.symm),
    envRemove_find_other e k k2 h]

theorem clear_env_cons (key : String) (keys : List String) (e : Env) :
    clear_env (key :: keys) e
      = clear_env keys
          (if (envGet e key).isSome then envRemove e key else e) := rfl

theorem envGet_clear_env_none (keys : List String) (e : Env) (k : String)
    (h : envGet e k = none) : envGet (clear_env keys e) k = none := by
  induction keys generalizing e with
  | nil => simpa [clear_env]
  | cons key rest ih =>
    rw [clear_env_cons]
    apply ih
    by_cases hk : k = key
    · subst hk
      by_cases hs : (envGet e k).isSome
      · simp [hs, envGet_envRemove_self]
      · simpa [hs]
    · by_cases hs : (envGet e key).isSome
      · simpa [hs, envGet_envRemove_other e k key hk]
      · simpa [hs]

theorem envGet_clear_env_mem (keys : List String) (e : Env) (k : String)
    (h : k ∈ keys) : envGet (clear_env keys e) k = none := by
  induction keys generalizing e with
  | nil => cases h
  | cons key rest ih =>
    rw [clear_env_cons]
    rcases List.mem_cons.mp h with hk | hk
    · subst hk
      apply envGet_clear_env_none
      by_cases hs : (envGet e k).isSome
      · rw [if_pos hs]
        exact envGet_envRemove_self e k
      · rw [if_neg hs]
        exact Option.not_isSome_iff_eq_none.mp hs
    · exact ih _ hk

theorem envGet_clear_env_not_mem (keys : List String) (e : Env) (k : String)
    (h : ¬ (k ∈ keys)) : envGet (clear_env keys e) k = envGet e k := by
  induction keys generalizing e with
  | nil => simp [clear_env]
  | cons key rest ih =>
    have hk : ¬ (k = key) := fun hc => h (hc ▸ List.mem_cons_self key rest)
    have hrest : ¬ (k ∈ rest) := fun hc => h (List.mem_cons_of_mem key hc)
    rw [clear_env_cons]
    rw [ih _ hrest]
    by_cases hs : (envGet e key).isSome
    · simp [hs, envGet_envRemove_other e k key hk]
    · simp [hs]

theorem set_attr_vars_cons (kv : String × AttributeValue)
    (rest : List (String × AttributeValue)) (e : Env) :
    set_attr_vars (kv :: rest) e
      = set_attr_vars rest
          (envSet (if (envGet e kv.1).isSome then envRemove e kv.1 else e)
            kv.1 (attrValueToString kv.2)) := rfl

theorem envGet_set_attr_vars_not_mem
    (attributes : List (String × AttributeValue)) (e : Env) (k : String)
    (h : ¬ (k ∈ attributes.map (fun kv => kv.1))) :
    envGet (set_attr_vars attributes e) k = envGet e k := by
  induction attributes generalizing e with
  | nil => simp [set_attr_vars]
  | cons kv rest ih =>
    have hk : ¬ (k = kv.1) := by
      intro hc
      exact h (by simp [hc])
    have hrest : ¬ (k ∈ rest.map (fun kv2 => kv2.1)) := by
      intro hc
      exact h (by simp [hc])
    rw [set_attr_vars_cons, ih _ hrest,
      envGet_envSet_other _ k kv.1 _ hk]
    by_cases hs : (envGet e kv.1).isSome
    · simp [hs, envGet_envRemove_other e k kv.1 hk]
    · simp [hs]

theorem envGet_pass_opts_log (attributes : List (String × AttributeValue))
    (pkg_path : Option String) (log_file : String) (env : Env)
    (h : ¬ ("pkg_log_file" ∈ attributes.map (fun kv => kv.1))) :
    envGet (pass_opts_to_env attributes pkg_path log_file env)
      "pkg_log_file" = some log_file := by
  unfold pass_opts_to_env
  cases pkg_path <;>
    rw [envGet_set_attr_vars_not_mem _ _ _ h, envGet_envSet_self]

theorem envGet_pass_opts_path_some
    (attributes : List (String × AttributeValue)) (path log_file : String)
    (env : Env) (h : ¬ ("pkg_path" ∈ attributes.map (fun kv => kv.1))) :
    envGet (pass_opts_to_env attributes (some path) log_file env)
      "pkg_path" = some path := by
  unfold pass_opts_to_env
  rw [envGet_set_attr_vars_not_mem _ _ _ h,
    envGet_envSet_other _ _ _ _ (by decide)]
  by_cases hs : (envGet (envSet
      (if (envGet env "pkg_path").isSome then envRemove env "pkg_path"
        else env) "pkg_path" path) "pkg_log_file").isSome
  · simp [hs, envGet_envRemove_other _ _ _ (show ¬ ("pkg_path" =
      "pkg_log_file") by decide), envGet_envSet_self]
  · simp [hs, envGet_envSet_self]

theorem envGet_pass_opts_path_none
    (attributes : List (String × AttributeValue)) (log_file : String)
    (env : Env) (h : ¬ ("pkg_path" ∈ attributes.map (fun kv => kv.1))) :
    envGet (pass_opts_to_env attributes none log_file env)
      "pkg_path" = envGet env "pkg_path" := by
  unfold pass_opts_to_env
  rw [envGet_set_attr_vars_not_mem _ _ _ h,
    envGet_envSet_other _ _ _ _ (by decide)]
  by_cases hs : (envGet env "pkg_log_file").isSome
  · simp [hs, envGet_envRemove_other _ _ _ (show ¬ ("pkg_path" =
      "pkg_log_file") by decide)]
  · simp [hs]

/-! ### Characterization of the environment after `run_operation` -/

theorem run_op_result_env (spawn : Operation → Except String ProcOutput)
    (pwd : String) (pkg : PkgDeclaration) (op : Operation)
    (bo : Except String ProcOutput) (env : Env) (fs : FsState) :
    (run_op_result spawn pwd pkg op bo env fs).env = env := by
  unfold run_op_result
  repeat' split
  all_goals rfl

theorem run_operation_eq (spawn : Operation → Except String ProcOutput)
    (db : List DbPkg) (bn : String) (pkg : PkgDeclaration) (op : Operation)
    (pwd : String) (env : Env) (fs : FsState) :
    run_operation spawn db bn pkg op pwd env fs
      = run_op_result spawn pwd pkg op (spawn op)
          (clear_env (pkg.attributes.map (fun kv => kv.1))
            (pass_opts_to_env pkg.attributes
              (if op = Operation.Update ∨ op = Operation.Remove then
                ((get_pkgs_by_name db [pkg.name]).head?).map (fun p => p.path)
              else none)
              (DEFAULT_LOG_DIR ++ "/" ++ bn ++ ".log") env)) fs := rfl

theorem run_operation_env (spawn : Operation → Except String ProcOutput)
    (db : List DbPkg) (bn : String) (pkg : PkgDeclaration) (op : Operation)
    (pwd : String) (env : Env) (fs : FsState) :
    (run_operation spawn db bn pkg op pwd env fs).env
      = clear_env (pkg.attributes.map (fun kv => kv.1))
          (pass_opts_to_env pkg.attributes
            (if op = Operation.Update ∨ op = Operation.Remove then
              ((get_pkgs_by_name db [pkg.name]).head?).map (fun p => p.path)
            else none)
            (DEFAULT_LOG_DIR ++ "/" ++ bn ++ ".log") env) := by
  rw [run_operation_eq]
  exact run_op_result_env _ _ _ _ _ _ _

/-! ### Filesystem lemmas -/

theorem pathExists_of_isDirFs (fs : FsState) (p : String)
    (h : isDirFs fs p = true) : pathExists fs p = true := by
  rcases List.any_eq_true.mp h with ⟨e, he, hp⟩
  refine List.any_eq_true.mpr ⟨e, he, ?_⟩
  have hp2 := of_decide_eq_true hp
  simp [hp2.1]

theorem isDirFs_of_not_pathExists (fs : FsState) (p : String)
    (h : pathExists fs p = false) : isDirFs fs p = false := by
  by_contra hc
  have hd : isDirFs fs p = true := by
    cases hh : isDirFs fs p
    · exact absurd hh hc
    · rfl
  rw [pathExists_of_isDirFs fs p hd] at h
  cases h

theorem createDirAll_ok_cases (fs : FsState) (q : String) (f2 : FsState)
    (h : createDirAll fs q = .ok f2) :
    f2 = fs ∨ f2 = (q, FileKind.dir) :: fs := by
  unfold createDirAll at h
  by_cases h1 : isDirFs fs q = true
  · rw [if_pos h1] at h
    exact Or.inl (Except.ok.inj h).symm
  · rw [if_neg h1] at h
    by_cases h2 : pathExists fs q = true
    · rw [if_pos h2] at h
      cases h
    · rw [if_neg h2] at h
      exact Or.inr (Except.ok.inj h).symm

theorem isDirFs_cons (e : String × FileKind) (fs : FsState) (p : String)
    (h : isDirFs fs p = true) : isDirFs (e :: fs) p = true := by
  rcases List.any_eq_true.mp h with ⟨x, hx, hp⟩
  exact List.any_eq_true.mpr ⟨x, List.mem_cons_of_mem e hx, hp⟩

theorem isDirFs_fs_new_preserved (target load p : String) (fs : FsState)
    (h : isDirFs fs p = true) :
    isDirFs (fs_new target load fs) p = true := by
  unfold fs_new
  have step : ∀ (f : FsState) (q : String), isDirFs f p = true →
      isDirFs (match createDirAll f q with
        | .ok f2 => f2
        | .error _ => f) p = true := by
    intro f q hf
    cases hq : createDirAll f q with
    | error _ => exact hf
    | ok f2 =>
      rcases createDirAll_ok_cases f q f2 hq with h2 | h2 <;> subst h2
      · exact hf
      · exact isDirFs_cons _ _ _ hf
  exact step _ load (step fs target h)

/-! ### Claim theorems -/

/-- C1. Code bug witnessed at a concrete input: a Remove invocation whose
bridge subprocess spawns and exits with code 0 (empty stderr) does NOT
return success; `run_operation` falls into the non-sentinel branch and
returns `Failure (BridgeError "")`, contradicting the specified
"exit code 0 and operation = Remove: success" contract. -/
theorem c1_remove_exit_zero_returns_failure :
    (run_operation spawnExitZero dbOneRecord "br" declP Operation.Remove
        "/w" [] fsFileP).outcome
      = RunOutcome.failure (BridgeApiError.BridgeError "") := by
  decide

/-- C3. Code bug witnessed at concrete inputs.  First conjunct: on a
sentinel Remove (exit 1, stderr `__IMPL_DEFAULT`) where the recorded
`pkg_path` `/pkgs/p` does NOT exist beforehand, the overall result still
reports removed = true (the boolean computed by `default_impls::remove` is
discarded and `BridgeApi::remove` maps `Ok(None)` to `true`), contradicting
"removed = true iff the path existed beforehand".  Second conjunct: the
deletion itself does happen, recursively for a directory. -/
theorem c3_sentinel_remove_reports_true_for_missing_path :
    ((bridge_api_remove spawnSentinel dbOneRecord "br" declP "/w" []
        []).outcome = RemoveOutcome.success true
      ∧ pathExists [] "/pkgs/p" = false)
    ∧ ((bridge_api_remove spawnSentinel dbOneRecord "br" declP "/w" []
        fsDirP).fs = []
      ∧ (bridge_api_remove spawnSentinel dbOneRecord "br" declP "/w" []
        fsDirP).outcome = RemoveOutcome.success true) := by
  decide

/-- C5 counterexample: in Rebuild mode the produced job lists are NOT
executed in the order Reinstall, Install, Remove; the code pushes Install,
Remove, Reinstall, and a concrete all-success Rebuild run over a bridge
with `toInstall = [new]`, `toRemove = [old]`, `toUpdate = [cur]` attempts
the packages in the order new, old, cur. -/
theorem c5_counterexample :
    jobs_for Cmd.Rebuild ≠ [Job.Reinstall, Job.Install, Job.Remove]
    ∧ exec_run oraclesOk Cmd.Rebuild dbCurOld [bridgeRunCurNew]
        = (["new", "old", "cur"], none) := by
  decide

/-- C5 (amended). In Rebuild mode the produced job lists are executed in
the order Install(toInstall) first, then Remove(toRemove), then
Reinstall(toUpdate). -/
theorem c5_rebuild_job_order :
    jobs_for Cmd.Rebuild = [Job.Install, Job.Remove, Job.Reinstall] := by
  decide

/-- C4 counterexample: in a Rebuild run over packages `p1` and `p2` (both
installed, so both in the Reinstall job) where the bridge install of `p1`
fails, the run halts with that error after attempting only `p1`; the
remaining package `p2` is never executed, contradicting "every remaining
package and job of the run (in every mode, including Rebuild's Reinstall
jobs) still executes". -/
theorem c4_counterexample :
    exec_run oraclesFailP1 Cmd.Rebuild dbP1P2 [bridgeRunP1P2]
      = (["p1"], some "boom") := by
  decide

/-- C6 counterexample: a concrete Remove invocation with one attribute
`cfg` and a recorded `pkg_path` leaves both `pkg_log_file` and `pkg_path`
set in the environment when the call returns (only the attribute variable
is unset), contradicting "every environment variable set during marshaling
— each attribute-named variable, pkg_log_file, and for Update/Remove
pkg_path — is unset again by the time the call returns". -/
theorem c6_counterexample :
    envGet (run_operation spawnExitZero dbOneRecord "br" declPAttr
        Operation.Remove "/w" [] fsFileP).env "pkg_log_file"
      = some "/var/log/pkg/br.log"
    ∧ envGet (run_operation spawnExitZero dbOneRecord "br" declPAttr
        Operation.Remove "/w" [] fsFileP).env "pkg_path"
      = some "/pkgs/p"
    ∧ envGet (run_operation spawnExitZero dbOneRecord "br" declPAttr
        Operation.Remove "/w" [] fsFileP).env "cfg" = none := by
  decide

/-- C2. `Fs::link` returns `LoadPathIsFile` exactly when `load_path` exists
and is a directory (the directory case and the error case are swapped in
the branch logic), `Fs::new` creates `load_path` as a directory at
construction, and therefore the end-of-run link-farm rebuild on an
already-initialized system (load path absent beforehand and created by
`Fs::new`, or already a directory) always fails with `LoadPathIsFile`
instead of recreating the managed symlinks. -/
theorem c2_link_farm_rebuild_always_fails (target load : String)
    (pkgs : List DbPkg) (fs : FsState) :
    (∀ fs2 : FsState, isDirFs fs2 load = true →
      fs_link load pkgs fs2 = .error FsError.LoadPathIsFile)
    ∧ (pathExists fs load = false →
      isDirFs (fs_new target load fs) load = true)
    ∧ ((pathExists fs load = false ∨ isDirFs fs load = true) →
      fs_link load pkgs (fs_new target load fs)
        = .error FsError.LoadPathIsFile) := by
  have hA : ∀ fs2 : FsState, isDirFs fs2 load = true →
      fs_link load pkgs fs2 = .error FsError.LoadPathIsFile := by
    intro fs2 hdir
    have hex := pathExists_of_isDirFs fs2 load hdir
    unfold fs_link
    simp [hex, hdir]
  have hB : pathExists fs load = false →
      isDirFs (fs_new target load fs) load = true := by
    intro h
    have hnd := isDirFs_of_not_pathExists fs load h
    have hcreate : ∀ f : FsState, isDirFs f load = false →
        pathExists f load = false →
        createDirAll f load = .ok ((load, FileKind.dir) :: f) := by
      intro f h1 h2
      unfold createDirAll
      rw [if_neg (by simp [h1]), if_neg (by simp [h2])]
    unfold fs_new
    cases h1 : createDirAll fs target with
    | error e =>
      dsimp only
      rw [hcreate fs hnd h]
      simp [isDirFs]
    | ok f2 =>
      dsimp only
      rcases createDirAll_ok_cases fs target f2 h1 with h2 | h2 <;> subst h2
      · rw [hcreate _ hnd h]
        simp [isDirFs]
      · by_cases ht : target = load
        · subst ht
          have hd2 : isDirFs ((target, FileKind.dir) :: fs) target = true :=
            by simp [isDirFs]
          rw [show createDirAll ((target, FileKind.dir) :: fs) target
              = .ok ((target, FileKind.dir) :: fs) from by
            unfold createDirAll
            rw [if_pos hd2]]
          exact hd2
        · have hex2 : pathExists ((target, FileKind.dir) :: fs) load
              = false := by
            simp [pathExists, ht]
            simpa [pathExists] using h
          have hnd2 := isDirFs_of_not_pathExists _ _ hex2
          rw [hcreate _ hnd2 hex2]
          simp [isDirFs]
  refine ⟨hA, hB, ?_⟩
  intro h
  rcases h with h | h
  · exact hA _ (hB h)
  · exact hA _ (isDirFs_fs_new_preserved target load load fs h)

/-- C2 witness: on an initially empty filesystem, `Fs::new` creates the
load path and the subsequent `Fs::link` fails with `LoadPathIsFile`. -/
theorem c2_witness :
    pathExists [] "/load" = false
    ∧ fs_link "/load" [] (fs_new "/t" "/load" [])
      = .error FsError.LoadPathIsFile :=
  ⟨by decide,
   (c2_link_farm_rebuild_always_fails "/t" "/load" [] []).2.2
     (Or.inl (by decide))⟩

/-- C6 (amended). On every exit path after environment marshaling, every
attribute-named variable is unset by the time `run_operation` returns; but
`pkg_log_file` is not unset (it remains bound to the per-bridge log path
whenever no attribute shares its name), and for Update/Remove with a prior
record, `pkg_path` likewise remains bound to the recorded path. -/
theorem c6_amended_env_teardown (spawn : Operation → Except String ProcOutput)
    (db : List DbPkg) (bn : String) (pkg : PkgDeclaration) (op : Operation)
    (pwd : String) (env : Env) (fs : FsState) :
    (∀ k, k ∈ pkg.attributes.map (fun kv => kv.1) →
      envGet (run_operation spawn db bn pkg op pwd env fs).env k = none)
    ∧ (¬ ("pkg_log_file" ∈ pkg.attributes.map (fun kv => kv.1)) →
      envGet (run_operation spawn db bn pkg op pwd env fs).env "pkg_log_file"
        = some (DEFAULT_LOG_DIR ++ "/" ++ bn ++ ".log"))
    ∧ (∀ prior, ¬ ("pkg_path" ∈ pkg.attributes.map (fun kv => kv.1)) →
      (op = Operation.Update ∨ op = Operation.Remove) →
      (get_pkgs_by_name db [pkg.name]).head? = some prior →
      envGet (run_operation spawn db bn pkg op pwd env fs).env "pkg_path"
        = some prior.path) := by
  refine ⟨?_, ?_, ?_⟩
  · intro k hk
    rw [run_operation_env]
    exact envGet_clear_env_mem _ _ _ hk
  · intro h
    rw [run_operation_env, envGet_clear_env_not_mem _ _ _ h]
    exact envGet_pass_opts_log _ _ _ _ h
  · intro prior hattr hop hhead
    rw [run_operation_env, envGet_clear_env_not_mem _ _ _ hattr,
      if_pos hop, hhead]
    exact envGet_pass_opts_path_some _ _ _ _ hattr

/-- C6 witness: concrete application of the amended theorem on a Remove
invocation with a recorded path and one attribute. -/
theorem c6_amended_witness :
    envGet (run_operation spawnExitZero dbOneRecord "br" declPAttr
        Operation.Remove "/w" [] fsFileP).env "cfg" = none
    ∧ envGet (run_operation spawnExitZero dbOneRecord "br" declPAttr
        Operation.Remove "/w" [] fsFileP).env "pkg_log_file"
      = some (DEFAULT_LOG_DIR ++ "/" ++ "br" ++ ".log")
    ∧ envGet (run_operation spawnExitZero dbOneRecord "br" declPAttr
        Operation.Remove "/w" [] fsFileP).env "pkg_path"
      = some (dbOneRecord.headD ⟨"", ⟨"", "", ""⟩, "", .SingleExecutable,
        ""⟩).path :=
  ⟨(c6_amended_env_teardown spawnExitZero dbOneRecord "br" declPAttr
      Operation.Remove "/w" [] fsFileP).1 "cfg" (by decide),
   (c6_amended_env_teardown spawnExitZero dbOneRecord "br" declPAttr
      Operation.Remove "/w" [] fsFileP).2.1 (by decide),
   (c6_amended_env_teardown spawnExitZero dbOneRecord "br" declPAttr
      Operation.Remove "/w" [] fsFileP).2.2
      (dbOneRecord.headD ⟨"", ⟨"", "", ""⟩, "", .SingleExecutable, ""⟩)
      (by decide) (Or.inr rfl) (by decide)⟩

/-- C7. For Update/Remove of a package that has no record in the store, no
`pkg_path` is passed to marshaling, so: if the plugin requests default
behavior and `pkg_path` is absent from the process environment,
`default_impls::remove`'s `unwrap` panics (the run diverges); and if a
stale `pkg_path` from an earlier invocation is still set — it is never
unset between invocations — the default Remove deletes that stale path. -/
theorem c7_missing_record_default_remove
    (spawn : Operation → Except String ProcOutput) (db : List DbPkg)
    (bn : String) (pkg : PkgDeclaration) (op : Operation) (pwd : String)
    (env : Env) (fs : FsState) (out : ProcOutput)
    (h_op : op = Operation.Update ∨ op = Operation.Remove)
    (h_norec : ∀ r, r ∈ db → ¬ (r.name = pkg.name))
    (h_attr : ¬ ("pkg_path" ∈ pkg.attributes.map (fun kv => kv.1)))
    (h_spawn : spawn op = .ok out)
    (h_exit : out.exitCode = 1)
    (h_stderr : trimStr out.stderr = "__IMPL_DEFAULT") :
    (envGet env "pkg_path" = none →
      (run_operation spawn db bn pkg op pwd env fs).outcome
        = RunOutcome.diverge)
    ∧ (∀ stale, envGet env "pkg_path" = some stale →
        op = Operation.Remove → pathExists fs stale = true →
        isDirFs fs stale = false →
        (run_operation spawn db bn pkg op pwd env fs).fs
            = removeFileFs fs stale
          ∧ (run_operation spawn db bn pkg op pwd env fs).outcome
            = RunOutcome.success none) := by
  have hdb : get_pkgs_by_name db [pkg.name] = [] := by
    unfold get_pkgs_by_name
    rw [List.filter_eq_nil_iff]
    intro r hr
    simp [List.contains, h_norec r hr]
  have hcond : ¬ (out.exitCode = 0) ∧ out.exitCode = 1 ∧
      trimStr out.stderr = "__IMPL_DEFAULT" := by
    exact ⟨by simp [h_exit], h_exit, h_stderr⟩
  have henv2 : ∀ pp,
      envGet (clear_env (pkg.attributes.map (fun kv => kv.1))
        (pass_opts_to_env pkg.attributes none pp env)) "pkg_path"
      = envGet env "pkg_path" := by
    intro pp
    rw [envGet_clear_env_not_mem _ _ _ h_attr]
    exact envGet_pass_opts_path_none _ _ _ h_attr
  constructor
  · intro h_none
    rw [run_operation_eq, h_spawn, if_pos h_op, hdb]
    rcases h_op with h | h <;> subst h <;>
      simp only [run_op_result, if_pos hcond, default_impls_remove,
        List.head?, Option.map, henv2, h_none]
  · intro stale h_stale h_rem h_exists h_notdir
    subst h_rem
    rw [run_operation_eq, h_spawn, hdb]
    simp only [run_op_result, if_pos hcond, default_impls_remove,
      List.head?, Option.map, ite_self]
    rw [henv2, h_stale]
    simp [h_exists, h_notdir]

/-- C7 witness: concrete instantiation — an empty store, a sentinel Remove,
an environment without `pkg_path` diverges, and with a stale `pkg_path` the
stale file is deleted. -/
theorem c7_witness :
    ((run_operation spawnSentinel [] "br" declP Operation.Remove "/w" []
        fsFileP).outcome = RunOutcome.diverge)
    ∧ ((run_operation spawnSentinel [] "br" declP Operation.Remove "/w"
          [("pkg_path", "/stale")] [("/stale", FileKind.file)]).fs
        = removeFileFs [("/stale", FileKind.file)] "/stale"
      ∧ (run_operation spawnSentinel [] "br" declP Operation.Remove "/w"
          [("pkg_path", "/stale")] [("/stale", FileKind.file)]).outcome
        = RunOutcome.success none) :=
  ⟨(c7_missing_record_default_remove spawnSentinel [] "br" declP
      Operation.Remove "/w" [] fsFileP ⟨1, "", "__IMPL_DEFAULT"⟩
      (Or.inr rfl) (by decide) (by decide) rfl (by decide) (by decide)).1
      (by decide),
   (c7_missing_record_default_remove spawnSentinel [] "br" declP
      Operation.Remove "/w" [("pkg_path", "/stale")]
      [("/stale", FileKind.file)] ⟨1, "", "__IMPL_DEFAULT"⟩
      (Or.inr rfl) (by decide) (by decide) rfl (by decide) (by decide)).2
      "/stale" (by decide) rfl (by decide) (by decide)⟩

theorem exec_pkg_reinstall_eq (o : Oracles) (bn : String)
    (pkg : PkgDeclaration) :
    exec_pkg o bn Job.Reinstall pkg
      = (match o.install bn pkg with
        | .error err => StepFlow.halt err
        | .ok installed =>
          match o.remove bn pkg with
          | .error err => StepFlow.halt err
          | .ok _ => handle_add o bn (.ok installed) false) := rfl

theorem handle_add_next (o : Oracles) (bn : String)
    (action : Except String Pkg) (is_update : Bool) :
    handle_add o bn action is_update = StepFlow.next := by
  unfold handle_add
  repeat' split
  all_goals rfl

theorem handle_remove_next (o : Oracles) (action : Except String Bool)
    (pkg_name : String) :
    handle_remove o action pkg_name = StepFlow.next := by
  unfold handle_remove
  repeat' split
  all_goals rfl

/-- C4 (amended). Failure isolation holds for the Install, Update and
Remove jobs: a failure in the bridge invocation, filesystem placement or
record-store step never halts the run, and whenever no halt occurs every
package of the job list is executed in order.  But in Rebuild's Reinstall
job the run DOES halt: a halt can only come from a Reinstall package whose
bridge install, or subsequent bridge remove, invocation failed (record-
deletion failures there are still only reported). -/
theorem c4_amended_failure_isolation (o : Oracles) (bn : String) :
    (∀ job pkg, ¬ (job = Job.Reinstall) →
      exec_pkg o bn job pkg = StepFlow.next)
    ∧ (∀ job pkg err, exec_pkg o bn job pkg = StepFlow.halt err →
      job = Job.Reinstall ∧
        (o.install bn pkg = .error err ∨
          ∃ installed, o.install bn pkg = .ok installed ∧
            o.remove bn pkg = .error err))
    ∧ (∀ job pkgs, (exec_pkg_list o bn job pkgs).2 = none →
      (exec_pkg_list o bn job pkgs).1 = pkgs.map (fun p => p.name)) := by
  refine ⟨?_, ?_, ?_⟩
  · intro job pkg hj
    cases job with
    | Install => exact handle_add_next o bn _ _
    | Update => exact handle_add_next o bn _ _
    | Remove => exact handle_remove_next o _ _
    | Reinstall => exact absurd rfl hj
  · intro job pkg err h
    cases job with
    | Install => rw [show exec_pkg o bn Job.Install pkg = StepFlow.next from
        handle_add_next o bn _ _] at h; cases h
    | Update => rw [show exec_pkg o bn Job.Update pkg = StepFlow.next from
        handle_add_next o bn _ _] at h; cases h
    | Remove => rw [show exec_pkg o bn Job.Remove pkg = StepFlow.next from
        handle_remove_next o _ _] at h; cases h
    | Reinstall =>
      refine ⟨rfl, ?_⟩
      rw [exec_pkg_reinstall_eq] at h
      cases hi : o.install bn pkg with
      | error e =>
        rw [hi] at h
        cases h
        exact Or.inl rfl
      | ok installed =>
        rw [hi] at h
        cases hr : o.remove bn pkg with
        | error e =>
          rw [hr] at h
          cases h
          exact Or.inr ⟨installed, rfl, rfl⟩
        | ok b =>
          rw [hr] at h
          dsimp only at h
          rw [handle_add_next o bn (Except.ok installed) false] at h
          cases h
  · intro job pkgs
    induction pkgs with
    | nil => intro _; rfl
    | cons p rest ih =>
      intro h
      unfold exec_pkg_list at h ⊢
      cases he : exec_pkg o bn job p with
      | halt err =>
        rw [he] at h
        cases h
      | next =>
        rw [he] at h
        have h2 : (exec_pkg_list o bn job rest).2 = none := by simpa using h
        simp [ih h2]

/-- C4 witness: concrete application — an Install job never halts, and with
all-success oracles the per-job loop attempts every package in order. -/
theorem c4_amended_witness :
    exec_pkg oraclesOk "br" Job.Install ⟨"w1", "s1", []⟩ = StepFlow.next
    ∧ (exec_pkg_list oraclesOk "br" Job.Install
        [⟨"w1", "s1", []⟩, ⟨"w2", "s2", []⟩]).1
      = ([⟨"w1", "s1", []⟩, ⟨"w2", "s2", []⟩] :
          List PkgDeclaration).map (fun p => p.name) :=
  ⟨(c4_amended_failure_isolation oraclesOk "br").1 Job.Install
      ⟨"w1", "s1", []⟩ (by decide),
   (c4_amended_failure_isolation oraclesOk "br").2.2 Job.Install
      [⟨"w1", "s1", []⟩, ⟨"w2", "s2", []⟩] (by decide)⟩

theorem find_row_nodup (db : List DbPkg) (r : DbPkg) (h : r ∈ db)
    (hnd : (db.map (fun p => p.name)).Nodup) :
    db.find? (fun row => row.name = r.name) = some r := by
  induction db with
  | nil => cases h
  | cons x rest ih =>
    rcases List.mem_cons.mp h with hx | hx
    · subst hx
      exact List.find?_cons_of_pos _ (by simp)
    · have hnd2 : (rest.map (fun p => p.name)).Nodup :=
        (List.nodup_cons.mp (by simpa using hnd)).2
      have hxname : ¬ (x.name = r.name) := by
        intro hc
        exact (List.nodup_cons.mp (by simpa using hnd)).1
          (List.mem_map.mpr ⟨r, hx, hc.symm⟩)
      rw [List.find?_cons_of_neg _ (by simpa using hxname)]
      exact ih hx hnd2

theorem filter_pkgs_fst (db : List DbPkg) (inputs : List String)
    (decls : List PkgDeclaration) (bn : String) :
    (filter_pkgs_by_statuses db inputs decls bn).1
      = decls.filter (fun p =>
          (which_pkgs_are_installed db inputs).any (fun n => n = p.name)) :=
  rfl

theorem filter_pkgs_snd_fst (db : List DbPkg) (inputs : List String)
    (decls : List PkgDeclaration) (bn : String) :
    (filter_pkgs_by_statuses db inputs decls bn).2.1
      = decls.filter (fun p =>
          (which_pkgs_are_not_installed db inputs).any
            (fun n => n = p.name)) :=
  rfl

theorem filter_pkgs_snd_snd (db : List DbPkg) (inputs : List String)
    (decls : List PkgDeclaration) (bn : String) :
    (filter_pkgs_by_statuses db inputs decls bn).2.2
      = (db.filter (fun p =>
          ((db.filter (fun q => ¬ (inputs.contains q.name = true))).map
            (fun q => q.name)).contains p.name = true ∧
          get_pkg_bridge_by_name db p.name = some bn)).map
        to_pkg_declaration_with_empty_attributes :=
  rfl

/-- C8. For every bridge group and record-store snapshot (with the primary
key invariant: record names distinct, and the caller's invariant that the
name list passed in is the declared names): a declared package whose name
matches no installed record lands in toInstall and in neither toUpdate nor
toRemove; and an installed record owned by this bridge whose name is not
declared lands in toRemove. -/
theorem c8_reconciliation_placement (db : List DbPkg)
    (decls : List PkgDeclaration) (bridge_name : String)
    (inputs_pkgs : List String)
    (h_in : inputs_pkgs = decls.map (fun p => p.name))
    (hnd : (db.map (fun p => p.name)).Nodup) :
    (∀ d, d ∈ decls → (∀ r, r ∈ db → ¬ (r.name = d.name)) →
      d ∈ (filter_pkgs_by_statuses db inputs_pkgs decls bridge_name).2.1
      ∧ ¬ (d ∈ (filter_pkgs_by_statuses db inputs_pkgs decls
          bridge_name).1)
      ∧ ¬ (d ∈ (filter_pkgs_by_statuses db inputs_pkgs decls
          bridge_name).2.2))
    ∧ (∀ r, r ∈ db → r.bridge = bridge_name →
      ¬ (r.name ∈ inputs_pkgs) →
      to_pkg_declaration_with_empty_attributes r
        ∈ (filter_pkgs_by_statuses db inputs_pkgs decls bridge_name).2.2) := by
  constructor
  · intro d hd hno
    have hmem_name : d.name ∈ inputs_pkgs := by
      subst h_in
      exact List.mem_map.mpr ⟨d, hd, rfl⟩
    have hany_false : db.any (fun row => row.name = d.name) = false := by
      rw [List.any_eq_false]
      intro r hr
      simpa using hno r hr
    have hnotinst : d.name ∈ which_pkgs_are_not_installed db inputs_pkgs := by
      unfold which_pkgs_are_not_installed
      exact List.mem_filter.mpr ⟨hmem_name, by simp [hany_false]⟩
    refine ⟨?_, ?_, ?_⟩
    · rw [filter_pkgs_snd_fst]
      exact List.mem_filter.mpr
        ⟨hd, List.any_eq_true.mpr ⟨d.name, hnotinst, by simp⟩⟩
    · intro hc
      rw [filter_pkgs_fst] at hc
      rcases List.any_eq_true.mp (List.mem_filter.mp hc).2 with ⟨n, hn, heq⟩
      have heq2 : n = d.name := by simpa using heq
      rcases List.any_eq_true.mp (List.mem_filter.mp hn).2 with ⟨r, hr, hrn⟩
      exact hno r hr (by simpa [heq2] using hrn)
    · intro hc
      rw [filter_pkgs_snd_snd] at hc
      rcases List.mem_map.mp hc with ⟨r, hrf, heq⟩
      have hrdb : r ∈ db := (List.mem_filter.mp hrf).1
      have hname : r.name = d.name := by
        have := congrArg PkgDeclaration.name heq
        simpa [to_pkg_declaration_with_empty_attributes] using this
      exact hno r hrdb hname
  · intro r hr hbr hnotin
    rw [filter_pkgs_snd_snd]
    refine List.mem_map.mpr ⟨r, ?_, rfl⟩
    refine List.mem_filter.mpr ⟨hr, ?_⟩
    have hc1 : ((db.filter (fun q => ¬ (inputs_pkgs.contains q.name
        = true))).map (fun q => q.name)).contains r.name = true := by
      apply List.elem_iff.mpr
      refine List.mem_map.mpr ⟨r, ?_, rfl⟩
      refine List.mem_filter.mpr ⟨hr, ?_⟩
      have : ¬ (inputs_pkgs.contains r.name = true) := by
        intro hc
        exact hnotin (List.elem_iff.mp hc)
      simpa using this
    have hc2 : get_pkg_bridge_by_name db r.name = some bridge_name := by
      unfold get_pkg_bridge_by_name
      rw [find_row_nodup db r hr hnd]
      simp [hbr]
    exact decide_eq_true ⟨hc1, hc2⟩

/-- C8 witness: concrete snapshot with records `cur` and `old` owned by
`br` and declarations `cur`, `new`: the record-less `new` lands only in
toInstall, and the undeclared `old` record lands in toRemove. -/
theorem c8_witness :
    ((⟨"new", "s2", []⟩ : PkgDeclaration)
        ∈ (filter_pkgs_by_statuses dbCurOld ["cur", "new"]
          bridgeRunCurNew.decls "br").2.1
      ∧ ¬ ((⟨"new", "s2", []⟩ : PkgDeclaration)
        ∈ (filter_pkgs_by_statuses dbCurOld ["cur", "new"]
          bridgeRunCurNew.decls "br").1)
      ∧ ¬ ((⟨"new", "s2", []⟩ : PkgDeclaration)
        ∈ (filter_pkgs_by_statuses dbCurOld ["cur", "new"]
          bridgeRunCurNew.decls "br").2.2))
    ∧ to_pkg_declaration_with_empty_attributes
        ⟨"old", ⟨"1", "0", "0"⟩, "/store/old", .SingleExecutable, "br"⟩
      ∈ (filter_pkgs_by_statuses dbCurOld ["cur", "new"]
          bridgeRunCurNew.decls "br").2.2 :=
  ⟨(c8_reconciliation_placement dbCurOld bridgeRunCurNew.decls "br"
      ["cur", "new"] (by decide) (by decide)).1 ⟨"new", "s2", []⟩
      (by decide) (by decide),
   (c8_reconciliation_placement dbCurOld bridgeRunCurNew.decls "br"
      ["cur", "new"] (by decide) (by decide)).2
      ⟨"old", ⟨"1", "0", "0"⟩, "/store/old", .SingleExecutable, "br"⟩
      (by decide) (by decide) (by decide)⟩

/-- C9. For Install/Update output with exit code 0: a first line with
fewer than 2 or more than 3 comma-separated fields is a wrong-output
failure; with 2 or 3 fields, a second field that does not split into
exactly 3 dot-separated components fails with the wrong-version-format
error naming that field; concretely `1.2.3` parses while `1.2` and
`1.2.3.4` fail, and a present third field selects the Directory package
type while its absence selects SingleExecutable. -/
theorem c9_parse_bridge_output :
    (∀ (fs : FsState) (pwd : String) (o : ProcOutput) (line : String),
      o.exitCode = 0 → firstLineOpt o.stdout = some line →
      ((splitOnSep ',' (trimStr line)).length > 3 ∨
        (splitOnSep ',' (trimStr line)).length < 2) →
      parse_bridge_output fs pwd o
        = .error (.BridgeWrongOutput o.stdout))
    ∧ (∀ (fs : FsState) (pwd : String) (o : ProcOutput) (line : String),
      o.exitCode = 0 → firstLineOpt o.stdout = some line →
      ¬ ((splitOnSep ',' (trimStr line)).length > 3 ∨
        (splitOnSep ',' (trimStr line)).length < 2) →
      ¬ ((splitOnSep '.'
          ((splitOnSep ',' (trimStr line)).getD 1 "")).length = 3) →
      parse_bridge_output fs pwd o
        = .error (.BridgeWrongVersionFormat
            ((splitOnSep ',' (trimStr line)).getD 1 "")))
    ∧ parse_bridge_output [("/p", FileKind.file)] "/w" ⟨0, "/p,1.2.3\n", ""⟩
        = .ok ⟨⟨"1", "2", "3"⟩, "/p", .SingleExecutable⟩
    ∧ parse_bridge_output [("/p", FileKind.file)] "/w" ⟨0, "/p,1.2\n", ""⟩
        = .error (.BridgeWrongVersionFormat "1.2")
    ∧ parse_bridge_output [("/p", FileKind.file)] "/w"
        ⟨0, "/p,1.2.3.4\n", ""⟩
        = .error (.BridgeWrongVersionFormat "1.2.3.4")
    ∧ parse_bridge_output [("/p", FileKind.dir), ("/p/run", FileKind.file)]
        "/w" ⟨0, "/p,1.2.3,/p/run\n", ""⟩
        = .ok ⟨⟨"1", "2", "3"⟩, "/p", .Directory "/p/run"⟩ := by
  refine ⟨?_, ?_, rfl, rfl, rfl, rfl⟩
  · intro fs pwd o line h0 hline hlen
    unfold parse_bridge_output
    rw [if_neg (by simp [h0]), hline]
    dsimp only
    rw [if_pos hlen]
  · intro fs pwd o line h0 hline hlen hver
    unfold parse_bridge_output
    rw [if_neg (by simp [h0]), hline]
    dsimp only
    rw [if_neg hlen, if_pos hver]

/-- C9 witness: the general field-count and version-format clauses applied
at concrete outputs — a one-field first line is a wrong-output failure and
a three-field line with two-component version is a version-format
failure. -/
theorem c9_witness :
    parse_bridge_output [] "/w" ⟨0, "a\n", ""⟩
      = .error (.BridgeWrongOutput "a\n")
    ∧ parse_bridge_output [] "/w" ⟨0, "a,1.2,e\n", ""⟩
      = .error (.BridgeWrongVersionFormat
          ((splitOnSep ',' (trimStr "a,1.2,e")).getD 1 "")) :=
  ⟨c9_parse_bridge_output.1 [] "/w" ⟨0, "a\n", ""⟩ "a" rfl (by decide)
      (by decide),
   c9_parse_bridge_output.2.1 [] "/w" ⟨0, "a,1.2,e\n", ""⟩ "a,1.2,e" rfl
      (by decide) (by decide) (by decide)⟩

/-- C10. Discovery: a candidate directory whose name is not needed is
dropped by the scan loop before any permission check (the result does not
depend on its permission bits); a needed candidate whose present `run`
entry-point file has no executable permission bit makes discovery fail
with the entry-point-not-executable error; and when the scan succeeds but
some needed name has no matching bridge, discovery fails with
`BridgeNotFound` naming only the first missing name (never returning a
partial bridge set). -/
theorem c10_discovery (root : String) (needed : List String) :
    (∀ (c : Candidate) (rest : List Candidate) (acc : List Bridge),
      c.isDir = true → needed.contains c.name = false →
      load_bridges_loop root needed (c :: rest) acc
        = load_bridges_loop root needed rest acc)
    ∧ (∀ (entries : List Candidate) (c : Candidate), c ∈ entries →
      c.isDir = true → needed.contains c.name = true →
      c.runExists = true → c.runIsFile = true → c.runExecutable = false →
      ∃ p, load_bridges root true true entries needed
        = .error (.BridgeEntryPointNotExecutable p))
    ∧ (∀ (entries : List Candidate) (bridges : List Bridge) (m : String)
        (ms : List String),
      load_bridges_loop root needed entries [] = .ok bridges →
      needed.filter (fun b => ¬ bridges.any (fun bridge => bridge.name = b))
        = m :: ms →
      load_bridges root true true entries needed
        = .error (.BridgeNotFound m)) := by
  refine ⟨?_, ?_, ?_⟩
  · intro c rest acc hdir hcon
    simp only [load_bridges_loop]
    rw [if_pos hdir, if_pos (show ¬ (needed.contains c.name = true) from by
      rw [hcon]
      exact Bool.false_ne_true)]
  · intro entries c hmem hdir hcon hre hrf hrx
    have key : ∀ (es : List Candidate), c ∈ es → ∃ p, ∀ acc,
        load_bridges_loop root needed es acc
          = .error (.BridgeEntryPointNotExecutable p) := by
      intro es
      induction es with
      | nil => intro h; cases h
      | cons x rest ih =>
        intro hm
        rcases List.mem_cons.mp hm with hx | hx
        · subst hx
          refine ⟨root ++ "/" ++ c.name ++ "/run", fun acc => ?_⟩
          simp only [load_bridges_loop]
          rw [if_pos hdir, if_neg (show ¬ ¬ (needed.contains c.name = true)
              from by rw [hcon]; simp), if_pos ⟨hre, hrf⟩,
            if_pos (show ¬ (c.runExecutable = true) from by
              rw [hrx]; exact Bool.false_ne_true)]
        · rcases ih hx with ⟨p, hp⟩
          by_cases h1 : x.isDir = true
          · by_cases h2 : needed.contains x.name = true
            · by_cases h3 : x.runExists = true ∧ x.runIsFile = true
              · by_cases h4 : x.runExecutable = true
                · refine ⟨p, fun acc => ?_⟩
                  simp only [load_bridges_loop]
                  rw [if_pos h1, if_neg (show ¬ ¬ (needed.contains x.name
                      = true) from by rw [h2]; simp), if_pos h3,
                    if_neg (show ¬ ¬ (x.runExecutable = true) from by
                      rw [h4]; simp)]
                  exact hp _
                · refine ⟨root ++ "/" ++ x.name ++ "/run", fun acc => ?_⟩
                  simp only [load_bridges_loop]
                  rw [if_pos h1, if_neg (show ¬ ¬ (needed.contains x.name
                      = true) from by rw [h2]; simp), if_pos h3,
                    if_pos h4]
              · refine ⟨p, fun acc => ?_⟩
                simp only [load_bridges_loop]
                rw [if_pos h1, if_neg (show ¬ ¬ (needed.contains x.name
                    = true) from by rw [h2]; simp), if_neg h3]
                exact hp _
            · refine ⟨p, fun acc => ?_⟩
              simp only [load_bridges_loop]
              rw [if_pos h1, if_pos h2]
              exact hp _
          · refine ⟨p, fun acc => ?_⟩
            simp only [load_bridges_loop]
            rw [if_neg h1]
            exact hp _
    rcases key entries hmem with ⟨p, hp⟩
    refine ⟨p, ?_⟩
    simp only [load_bridges]
    rw [if_neg (by simp), if_neg (by simp), hp []]
  · intro entries bridges m ms hok hmiss
    simp only [load_bridges]
    rw [if_neg (by simp), if_neg (by simp), hok]
    dsimp only
    rw [hmiss]
    simp

/-- C10 witness: concrete application — a not-needed candidate is dropped
regardless of its permission bits, a needed non-executable `run` fails
discovery, and an empty scan with one needed name reports it missing. -/
theorem c10_witness :
    load_bridges_loop "/br" ["a"] [⟨"z", true, true, true, false⟩] []
        = load_bridges_loop "/br" ["a"] [] []
    ∧ (∃ p, load_bridges "/br" true true [⟨"a", true, true, true, false⟩]
        ["a"] = .error (.BridgeEntryPointNotExecutable p))
    ∧ load_bridges "/br" true true [] ["a"]
        = .error (.BridgeNotFound "a") :=
  ⟨(c10_discovery "/br" ["a"]).1 ⟨"z", true, true, true, false⟩ [] []
      (by decide) (by decide),
   (c10_discovery "/br" ["a"]).2.1 [⟨"a", true, true, true, false⟩]
      ⟨"a", true, true, true, false⟩ (by decide) (by decide) (by decide)
      (by decide) (by decide) (by decide),
   (c10_discovery "/br" ["a"]).2.2 [] [] "a" [] rfl (by decide)⟩

end PkgSpec
